import Mathlib

/-!
A verification development for the `grafpng` report generator
(`report/report.go`, `cmd/grafpng/main.go`, `cmd/grafpng/handler.go`).

The Go code is shallowly embedded: Go structs become Lean structures,
Go `int` becomes `Int`, fallible calls return `Except String`, the shared
mutable state of the worker pool in `renderPNGsParallel` becomes an explicit
state machine driven by a schedule of dequeue/complete events, and filesystem
and network effects are abstracted into oracles passed in as parameters.
`image.Image` bitmaps are opaque handles (`Nat`): no verified property
inspects pixel contents, only which bitmap is drawn where.
-/

deriving instance DecidableEq for Except

namespace Grafpng

/-- Embeds `grafana.Panel` (only the field the report code uses: `Id int`). -/
structure Panel where
  id : Int
deriving Repr, DecidableEq

/-- Embeds `grafana.Dashboard` (the fields the report code uses: `Title`, `Panels`).
`panels` is the ordered, flattened panel sequence of the dashboard. -/
structure Dashboard where
  title : String
  panels : List Panel
deriving Repr, DecidableEq

/-- The `report.go` `imageData` struct holding each input image and related data.
The Go field `img image.Image` is modeled as an opaque bitmap handle. -/
structure imageData where
  img : Nat
  width : Int
  height : Int
  path : String
deriving Repr, DecidableEq

/-- Go `getTotalDim`: sums the heights and widths of all input images; errors
when both totals are zero (`"total Height and Width cannot be 0"`). -/
def getTotalDim (images : List imageData) : Except String (Int × Int) :=
  let height := images.foldl (fun h imd => h + imd.height) 0
  let width := images.foldl (fun w imd => w + imd.width) 0
  if height = 0 ∧ width = 0 then
    .error "total Height and Width cannot be 0"
  else
    .ok (height, width)

/-- Go `getMaxDim`: maximum height and width over all input images, starting
from `0, 0`. The Go version's error result is always `nil`, so it is omitted. -/
def getMaxDim (images : List imageData) : Int × Int :=
  images.foldl
    (fun m imd =>
      (if imd.height > m.1 then imd.height else m.1,
       if imd.width > m.2 then imd.width else m.2))
    (0, 0)

/-- An `image.Rectangle` given by its min and max corners, as produced by
`image.Rect(x0, y0, x1, y1)`. -/
structure Rect where
  x0 : Int
  y0 : Int
  x1 : Int
  y1 : Int
deriving Repr, DecidableEq

/-- One `draw.Draw(img, r, imd.img, image.Point{0,0}, draw.Over)` call:
the destination rectangle together with the source image drawn into it. -/
structure DrawOp where
  rect : Rect
  src : imageData
deriving Repr, DecidableEq

/-- The composed output of `makeImage`: the canvas rectangle passed to
`image.NewRGBA`, the sequence of draw calls in loop order, and the name of
the file the encoded PNG is written to. -/
structure Composite where
  canvas : Rect
  draws : List DrawOp
  file : String
deriving Repr, DecidableEq

/-- The loop body of `makeImage`: starting from `posx, posy = 0, 0`, each
image is drawn at `image.Rect(posx, posy, posx+imd.width, posy+imd.height)`
and then `posy = posy + imd.height`. `posx` is never changed. -/
def makeImageDraws (images : List imageData) : List DrawOp :=
  (images.foldl
    (fun (st : Int × List DrawOp) imd =>
      (st.1 + imd.height,
       st.2 ++ [⟨⟨0, st.1, 0 + imd.width, st.1 + imd.height⟩, imd⟩]))
    (0, [])).2

/-- Go `makeImage`: allocates `image.NewRGBA(image.Rect(0, 0, maxw, th))`,
draws every image in order, and writes the encoding to `outfile + ".png"`.
`tw` and `maxh` are accepted and ignored exactly as in the source.
Filesystem errors of `os.Create`/`png.Encode` are outside the model. -/
def makeImage (th tw maxh maxw : Int) (images : List imageData)
    (outfile : String) : Composite :=
  let _ := tw
  let _ := maxh
  { canvas := ⟨0, 0, maxw, th⟩
    draws := makeImageDraws images
    file := outfile ++ ".png" }

/-- Go `processImages`: computes total and maximum dimensions, then calls
`makeImage`. The only error source in the model is `getTotalDim`. -/
def processImages (images : List imageData) (outfile : String) :
    Except String Composite :=
  match getTotalDim images with
  | .error e => .error e
  | .ok (th, tw) =>
      let (maxh, maxw) := getMaxDim images
      .ok (makeImage th tw maxh maxw images outfile)

/-- Sum of panel heights, the specification-level description of the canvas
height. -/
def sumHeights (images : List imageData) : Int :=
  (images.map (fun imd => imd.height)).sum

/-- Sum of panel widths. -/
def sumWidths (images : List imageData) : Int :=
  (images.map (fun imd => imd.width)).sum

/-- Positionally recursive description of `makeImage`'s draw loop: the image
list drawn starting at vertical offset `posy`. -/
def drawsFrom (posy : Int) : List imageData → List DrawOp
  | [] => []
  | imd :: rest =>
      ⟨⟨0, posy, 0 + imd.width, posy + imd.height⟩, imd⟩ :: drawsFrom (posy + imd.height) rest

/-!
### Panel retrieval: `renderPNG` and the `renderPNGsParallel` worker pool

The external effects a worker performs are abstracted as oracles. The
shared mutable state of the pool (the buffered panel channel, the shared
`images` slice, the `errs` channel, the `sync.WaitGroup`) becomes an
explicit state, and the nondeterministic interleaving of the goroutines
becomes a schedule of events driving a step function.
-/

/-- Outcomes of the external calls one worker iteration makes:
`getPanelPng` is `grafana.Client.GetPanelPng` (an opaque byte-stream handle
or an error); `persist` covers `os.MkdirAll` + `os.Create` + `io.Copy` for
the panel's image file; `decodeFile` covers `os.Open` + `image.Decode` and
the `image.DecodeConfig` inside `getDim`, yielding the bitmap handle, the
height, and the width of the named file. -/
structure Env where
  getPanelPng : Panel → Except String Nat
  persist : Panel → Nat → Except String Unit
  decodeFile : String → Except String (Nat × Int × Int)

/-- The constant `imgDir = "images"`. -/
def imgDir : String := "images"

/-- Go `imgDirPath()`: `filepath.Join(rep.tmpDir, imgDir)`. -/
def imgDirPath (tmpDir : String) : String := tmpDir ++ "/" ++ imgDir

/-- The panel's image file: `fmt.Sprintf("image%d.png", p.Id)` joined under
the image directory; this is the `file.Name()` returned by `renderPNG`. -/
def panelFileName (tmpDir : String) (p : Panel) : String :=
  imgDirPath tmpDir ++ "/image" ++ toString p.id ++ ".png"

/-- Go `renderPNG`: fetches the panel PNG from Grafana, creates the image
directory, copies the body into the panel's file; returns the file name, or
the first error wrapped with context as in the Go `fmt.Errorf` calls. -/
def renderPNG (env : Env) (tmpDir : String) (p : Panel) :
    Except String String :=
  match env.getPanelPng p with
  | .error e => .error ("error getting panel " ++ toString p.id ++ ": " ++ e)
  | .ok body =>
      match env.persist p body with
      | .error e => .error e
      | .ok _ => .ok (panelFileName tmpDir p)

/-- What one iteration of `for p := range panels` does with its panel. -/
inductive PanelOutcome where
  | appended (imd : imageData)
  | fatalAfterSend (e : String)
  | fatalSilent
deriving Repr, DecidableEq

/-- The body of the worker loop in `renderPNGsParallel`. When `renderPNG`
fails, the error is sent on `errs`, but the loop does not `continue`: it
falls through to `os.Open(filename)` with `filename == ""`, which always
fails, so the worker calls `log.Fatal`, killing the whole process
(`fatalAfterSend`). When opening, decoding, or `getImageData` on the
written file fails, the worker calls `log.Fatal` without sending any error
(`fatalSilent`). Otherwise the decoded `imageData` is appended to the
shared `images` slice (`getImageData` stores the bitmap, the path, and the
height/width read back by `getDim`). -/
def processPanel (env : Env) (tmpDir : String) (p : Panel) : PanelOutcome :=
  match renderPNG env tmpDir p with
  | .error e => .fatalAfterSend e
  | .ok filename =>
      match env.decodeFile filename with
      | .error _ => .fatalSilent
      | .ok (img, h, w) => .appended ⟨img, w, h, filename⟩

/-- An interleaving event: worker `w` dequeues the next panel from the
channel, or worker `w` finishes processing the panel it currently holds. -/
inductive Ev where
  | deq (w : Nat)
  | fin (w : Nat)
deriving Repr, DecidableEq

/-- The shared state of one `renderPNGsParallel` call: the closed buffered
channel (`queue`), the panels currently held by workers (`busy`), the
shared `images` slice in append order, the `errs` channel contents in send
order, the panels for which `GetPanelPng` has been invoked (`fetched`, an
instrumentation ghost used to count fetch calls), and whether `log.Fatal`
has killed the process. -/
structure PoolState where
  queue : List Panel
  busy : List (Nat × Panel)
  images : List imageData
  errs : List String
  fetched : List Panel
  fatal : Bool
deriving Repr, DecidableEq

/-- Worker `w` is not currently processing a panel. -/
def workerFree (s : PoolState) (w : Nat) : Bool :=
  s.busy.all (fun b => b.1 != w)

/-- One scheduler step with a pool of `nw` workers. A `deq w` takes the
head of the channel if `w` is a pool worker that is free; a `fin w` runs
the loop body on the panel `w` holds. After `log.Fatal` the process is
dead and nothing moves. -/
def PoolState.step (env : Env) (tmpDir : String) (nw : Nat)
    (s : PoolState) (e : Ev) : PoolState :=
  if s.fatal then s else
  match e with
  | .deq w =>
      if w < nw ∧ workerFree s w then
        match s.queue with
        | [] => s
        | p :: rest => { s with queue := rest, busy := s.busy ++ [(w, p)] }
      else s
  | .fin w =>
      match s.busy.find? (fun b => b.1 == w) with
      | none => s
      | some bp =>
          let s' := { s with
            busy := s.busy.filter (fun b => b.1 != w),
            fetched := s.fetched ++ [bp.2] }
          match processPanel env tmpDir bp.2 with
          | .appended imd => { s' with images := s'.images ++ [imd] }
          | .fatalAfterSend e => { s' with errs := s'.errs ++ [e], fatal := true }
          | .fatalSilent => { s' with fatal := true }

/-- The state before any goroutine runs: `for _, p := range dash.Panels`
sends every panel once into the buffered channel, then `close(panels)`. -/
def initState (dash : Dashboard) : PoolState :=
  { queue := dash.panels, busy := [], images := [], errs := [], fetched := []
    fatal := false }

/-- The hard-coded `workers := 5` in `renderPNGsParallel`. -/
def workers : Nat := 5

/-- Run the pool under a schedule of interleaving events. -/
def runPool (env : Env) (tmpDir : String) (nw : Nat) (dash : Dashboard)
    (sched : List Ev) : PoolState :=
  sched.foldl (PoolState.step env tmpDir nw) (initState dash)

/-- Holds when `wg.Wait()` has returned: the channel is drained, no worker still holds
a panel, and the process was not killed by `log.Fatal`. -/
def completedRun (s : PoolState) : Prop :=
  s.fatal = false ∧ s.queue = [] ∧ s.busy = []

/-- The code after `wg.Wait()`: `close(errs)`, drain the channel and return
the first error received, if any; otherwise compose the collected images
with the dashboard title as output name. -/
def coordinatorResult (dash : Dashboard) (s : PoolState) :
    Except String Composite :=
  match s.errs with
  | e :: _ => .error e
  | [] => processImages s.images dash.title

/-- Go `renderPNGsParallel` under a given interleaving: `none` when the call
never returns (the process died at a `log.Fatal`, or the schedule leaves
work unfinished so `wg.Wait()` still blocks); otherwise the returned
value. The pool has `workers = 5` workers, as hard-coded in the source. -/
def renderPNGsParallel (env : Env) (tmpDir : String) (dash : Dashboard)
    (sched : List Ev) : Option (Except String Composite) :=
  let s := runPool env tmpDir workers dash sched
  if s.fatal = false ∧ s.queue = [] ∧ s.busy = [] then
    some (coordinatorResult dash s)
  else
    none

/-- The combined multiset of panels sitting in the channel, held by
workers, and already fetched: the conserved quantity of the pool. -/
def poolMultiset (s : PoolState) : Multiset Panel :=
  (s.queue : Multiset Panel) + ((s.busy.map Prod.snd : List Panel) : Multiset Panel)
    + (s.fetched : Multiset Panel)

/-- The pool invariant: no worker holds two panels at once, and the panels
in the channel, in flight, and fetched are exactly the dashboard's. -/
def PoolInv (dash : Dashboard) (s : PoolState) : Prop :=
  (s.busy.map Prod.fst).Nodup ∧ poolMultiset s = (dash.panels : Multiset Panel)

/-!
### Report session: `Title`, `Generate`, `Clean`, and `main`'s worker flag
-/

/-- Go `Title()`, as a function of the `GetDashboard` outcome and the stored
`rep.dashTitle`: returns the result, the new stored title, and whether
`GetDashboard` was called. The title is fetched lazily when the stored one
is empty; a fetch error returns `""` and leaves the stored title alone. -/
def TitleCall (gd : Except String Dashboard) (dashTitle : String) :
    String × String × Bool :=
  if dashTitle = "" then
    match gd with
    | .error _ => ("", dashTitle, true)
    | .ok dash => (dash.title, dash.title, true)
  else (dashTitle, dashTitle, false)

/-- Go `Generate()`, with the PNG pipeline abstracted as `render`: fetches the
dashboard (wrapping errors with the dashboard name), stores its title, runs
the renderer (wrapping its errors), and returns the result together with
the new stored `rep.dashTitle`. -/
def GenerateCall (gd : Except String Dashboard) (dashName : String)
    (render : Dashboard → Except String String) (dashTitle : String) :
    Except String String × String :=
  match gd with
  | .error e =>
      (.error ("error fetching dashboard " ++ dashName ++ ": " ++ e), dashTitle)
  | .ok dash =>
      match render dash with
      | .error e => (.error ("error rendering PNGs in parralel for dash: " ++ e), dash.title)
      | .ok fn => (.ok fn, dash.title)

/-- The expression `filepath.Join("tmp", uuid.New())`: the per-session scratch directory. -/
def tmpDirOf (uuid : String) : String := "tmp/" ++ uuid

/-- Whether `os.RemoveAll(dir)` — the body of `Clean()` — deletes the file
at the (relative, clean) path `file`: exactly when `file` is `dir` itself
or lies below it. -/
def removedByRemoveAll (dir file : String) : Bool :=
  file == dir || (dir ++ "/").toList.isPrefixOf file.toList

/-- From `main.go`: `worker` flag (default 2), then
`w := 1; if *worker < 1 { worker = &w }`. The worker count after main's
clamping. -/
def mainWorkerValue (flagWorker : Int) : Int :=
  if flagWorker < 1 then 1 else flagWorker

/-!
### Concrete inputs used by counterexamples and witnesses
-/

/-- Two-panel dashboard for the assembly-order counterexample. -/
def exDash : Dashboard := ⟨"My first dashboard", [⟨1⟩, ⟨2⟩]⟩

/-- All calls succeed; panel 1's file decodes to a 30×10 bitmap (handle
10), panel 2's to a 40×20 bitmap (handle 20). -/
def exEnv : Env where
  getPanelPng := fun _ => .ok 0
  persist := fun _ _ => .ok ()
  decodeFile := fun path =>
    if path = panelFileName (tmpDirOf "u1") ⟨1⟩ then .ok (10, 10, 30)
    else .ok (20, 20, 40)

/-- Worker 0 dequeues panel 1, worker 1 dequeues panel 2, and worker 1
completes first. -/
def exSched : List Ev := [.deq 0, .deq 1, .fin 1, .fin 0]

/-- The `imageData` of panel 1 in `exEnv`. -/
def exImdA : imageData := ⟨10, 30, 10, panelFileName (tmpDirOf "u1") ⟨1⟩⟩

/-- The `imageData` of panel 2 in `exEnv`. -/
def exImdB : imageData := ⟨20, 40, 20, panelFileName (tmpDirOf "u1") ⟨2⟩⟩

/-- Three-panel dashboard for the fatal-on-fetch-error counterexample. -/
def exDash2 : Dashboard := ⟨"d2", [⟨1⟩, ⟨2⟩, ⟨3⟩]⟩

/-- Fetching panel 2 fails; everything else succeeds. -/
def exEnv2 : Env where
  getPanelPng := fun p => if p.id = 2 then .error "boom" else .ok 0
  persist := fun _ _ => .ok ()
  decodeFile := fun _ => .ok (1, 10, 10)

/-- One worker processes the queue sequentially. -/
def exSched2 : List Ev := [.deq 0, .fin 0, .deq 0, .fin 0, .deq 0, .fin 0]

/-- The fetch succeeds but decoding the written file fails. -/
def exEnvDecode : Env where
  getPanelPng := fun _ => .ok 0
  persist := fun _ _ => .ok ()
  decodeFile := fun _ => .error "bad png"

/-- Two-panel dashboard for the error-order counterexample. -/
def exDash3 : Dashboard := ⟨"d3", [⟨1⟩, ⟨2⟩]⟩

/-- Both panel fetches fail, with distinct messages. -/
def exEnv3 : Env where
  getPanelPng := fun p => .error ("e" ++ toString p.id)
  persist := fun _ _ => .ok ()
  decodeFile := fun _ => .ok (1, 10, 10)

/-- Both panels are dequeued; the later-enqueued panel's worker completes
first. -/
def exSched3 : List Ev := [.deq 0, .deq 1, .fin 1, .fin 0]

/-- One-panel dashboard for the composite-location counterexample. -/
def exDash6 : Dashboard := ⟨"My first dashboard", [⟨7⟩]⟩

/-- All calls succeed for the single panel. -/
def exEnv6 : Env where
  getPanelPng := fun _ => .ok 0
  persist := fun _ _ => .ok ()
  decodeFile := fun _ => .ok (1, 10, 10)

/-- The single panel is processed by worker 0. -/
def exSched6 : List Ev := [.deq 0, .fin 0]

/-- The nine-panel test dashboard (panel ids as in the repository's test
JSON). -/
def exDash9 : Dashboard :=
  ⟨"My first dashboard", [⟨1⟩, ⟨22⟩, ⟨33⟩, ⟨44⟩, ⟨55⟩, ⟨66⟩, ⟨77⟩, ⟨88⟩, ⟨99⟩]⟩

/-- All calls succeed. -/
def exEnv9 : Env where
  getPanelPng := fun _ => .ok 0
  persist := fun _ _ => .ok ()
  decodeFile := fun _ => .ok (1, 10, 10)

/-- An interleaved schedule over four workers that drains all nine
panels. -/
def exSched9 : List Ev :=
  [.deq 0, .deq 1, .deq 2, .deq 3, .fin 1, .fin 0, .deq 0, .fin 2, .deq 2,
   .fin 3, .deq 1, .fin 0, .fin 2, .deq 3, .fin 1, .deq 0, .fin 3, .fin 0]

/-- Example image list for the layout witness: a 30×10 and a 40×20 panel. -/
def exImgs : List imageData := [⟨0, 30, 10, "a.png"⟩, ⟨1, 40, 20, "b.png"⟩]

/-- The width component of the pair-valued fold in `getMaxDim`, as a fold on
widths alone. -/
def maxWidthFold (l : List imageData) (a : Int) : Int :=
  l.foldl (fun m imd => if imd.width > m then imd.width else m) a

theorem foldl_height_sum (l : List imageData) (a : Int) :
    l.foldl (fun h imd => h + imd.height) a = a + sumHeights l := by
  induction l generalizing a with
  | nil => simp [sumHeights]
  | cons x xs ih =>
      simp only [List.foldl_cons, ih, sumHeights, List.map_cons, List.sum_cons]
      ring

theorem foldl_width_sum (l : List imageData) (a : Int) :
    l.foldl (fun w imd => w + imd.width) a = a + sumWidths l := by
  induction l generalizing a with
  | nil => simp [sumWidths]
  | cons x xs ih =>
      simp only [List.foldl_cons, ih, sumWidths, List.map_cons, List.sum_cons]
      ring

theorem getTotalDim_eq (images : List imageData) :
    getTotalDim images =
      (if sumHeights images = 0 ∧ sumWidths images = 0 then
        .error "total Height and Width cannot be 0"
      else .ok (sumHeights images, sumWidths images)) := by
  simp only [getTotalDim, foldl_height_sum, foldl_width_sum, Int.zero_add]

theorem getMaxDim_aux (l : List imageData) (p : Int × Int) :
    (l.foldl
      (fun m imd =>
        (if imd.height > m.1 then imd.height else m.1,
         if imd.width > m.2 then imd.width else m.2)) p).2 =
      maxWidthFold l p.2 := by
  induction l generalizing p with
  | nil => simp [maxWidthFold]
  | cons x xs ih => simp [maxWidthFold, List.foldl_cons, ih]

theorem getMaxDim_snd (l : List imageData) :
    (getMaxDim l).2 = maxWidthFold l 0 :=
  getMaxDim_aux l (0, 0)

theorem le_maxWidthFold (l : List imageData) (a b : Int) (hab : a ≤ b) :
    a ≤ maxWidthFold l b := by
  induction l generalizing b with
  | nil => simpa [maxWidthFold] using hab
  | cons y ys ih =>
      simp only [maxWidthFold, List.foldl_cons] at *
      apply ih
      by_cases hy : y.width > b
      · rw [if_pos hy]; omega
      · rw [if_neg hy]; exact hab

theorem maxWidthFold_le (l : List imageData) (a : Int) :
    ∀ imd ∈ l, imd.width ≤ maxWidthFold l a := by
  induction l generalizing a with
  | nil => intro imd h; cases h
  | cons x xs ih =>
      intro imd h
      rcases List.mem_cons.mp h with rfl | hmem
      · simp only [maxWidthFold, List.foldl_cons]
        apply le_maxWidthFold
        by_cases hx : imd.width > a
        · rw [if_pos hx]
        · rw [if_neg hx]; omega
      · simp only [maxWidthFold, List.foldl_cons]
        exact ih _ imd hmem

theorem maxWidthFold_attained (l : List imageData) (a : Int) :
    maxWidthFold l a = a ∨ ∃ imd ∈ l, imd.width = maxWidthFold l a := by
  induction l generalizing a with
  | nil => exact Or.inl rfl
  | cons x xs ih =>
      simp only [maxWidthFold, List.foldl_cons]
      by_cases hx : x.width > a
      · simp only [hx, if_pos]
        rcases ih x.width with h | ⟨imd, hmem, heq⟩
        · exact Or.inr ⟨x, List.mem_cons_self x xs, h.symm⟩
        · exact Or.inr ⟨imd, List.mem_cons_of_mem _ hmem, heq⟩
      · simp only [hx, if_neg, not_false_iff]
        rcases ih a with h | ⟨imd, hmem, heq⟩
        · exact Or.inl h
        · exact Or.inr ⟨imd, List.mem_cons_of_mem _ hmem, heq⟩

theorem makeImageDraws_aux (l : List imageData) (posy : Int) (acc : List DrawOp) :
    (l.foldl
      (fun (st : Int × List DrawOp) imd =>
        (st.1 + imd.height,
         st.2 ++ [⟨⟨0, st.1, 0 + imd.width, st.1 + imd.height⟩, imd⟩]))
      (posy, acc)).2 = acc ++ drawsFrom posy l := by
  induction l generalizing posy acc with
  | nil => simp [drawsFrom]
  | cons x xs ih =>
      simp only [List.foldl_cons, drawsFrom, ih, List.append_assoc,
        List.singleton_append]

theorem makeImageDraws_eq (l : List imageData) :
    makeImageDraws l = drawsFrom 0 l := by
  simpa [makeImageDraws] using makeImageDraws_aux l 0 []

theorem drawsFrom_length (posy : Int) (l : List imageData) :
    (drawsFrom posy l).length = l.length := by
  induction l generalizing posy with
  | nil => rfl
  | cons x xs ih => simp [drawsFrom, ih]

theorem drawsFrom_get (l : List imageData) (posy : Int) (i : Nat)
    (hi : i < l.length) :
    (drawsFrom posy l).get ⟨i, by rw [drawsFrom_length]; exact hi⟩ =
      ⟨⟨0, posy + sumHeights (l.take i),
        0 + (l.get ⟨i, hi⟩).width,
        posy + sumHeights (l.take i) + (l.get ⟨i, hi⟩).height⟩,
       l.get ⟨i, hi⟩⟩ := by
  induction l generalizing posy i with
  | nil => cases hi
  | cons x xs ih =>
      cases i with
      | zero => simp [drawsFrom, sumHeights]
      | succ n =>
          have hn : n < xs.length := Nat.lt_of_succ_lt_succ hi
          have := ih (posy + x.height) n hn
          simp only [drawsFrom, List.get_cons_succ, List.take_succ_cons,
            sumHeights, List.map_cons, List.sum_cons] at this ⊢
          rw [this]
          congr 2 <;> ring

theorem drawsFrom_getq (l : List imageData) (posy : Int) :
    ∀ (i : Nat) (imd : imageData), l.get? i = some imd →
      (drawsFrom posy l).get? i =
        some ⟨⟨0, posy + sumHeights (l.take i), imd.width,
          posy + sumHeights (l.take i) + imd.height⟩, imd⟩ := by
  induction l generalizing posy with
  | nil => intro i imd h; simp at h
  | cons x xs ih =>
      intro i imd h
      cases i with
      | zero =>
          simp only [List.get?_cons_zero, Option.some.injEq] at h
          subst h
          simp [drawsFrom, sumHeights]
      | succ n =>
          simp only [List.get?_cons_succ] at h
          have hrec := ih (posy + x.height) n imd h
          simp only [drawsFrom, List.get?_cons_succ, List.take_succ_cons,
            sumHeights, List.map_cons, List.sum_cons] at hrec ⊢
          rw [hrec]
          simp only [Option.some.injEq, DrawOp.mk.injEq, Rect.mk.injEq,
            and_true, true_and]
          constructor <;> ring

/-- Claim C4: for every non-empty list of retrieved panels whose widths are
non-negative and whose dimensions are not all zero, composition succeeds;
the canvas is `image.Rect(0, 0, maxw, th)` where `th` is the sum of all
panel heights and `maxw` is an upper bound of every panel width that is
attained by some panel (the maximum width); and the `i`-th panel in the
list is drawn at `x = 0` and `y` equal to the sum of the heights of the
panels before it. -/
theorem processImages_layout (images : List imageData) (out : String)
    (hne : images ≠ [])
    (hw : ∀ imd ∈ images, 0 ≤ imd.width)
    (hnz : ¬(sumHeights images = 0 ∧ sumWidths images = 0)) :
    ∃ comp, processImages images out = .ok comp ∧
      comp.canvas = ⟨0, 0, maxWidthFold images 0, sumHeights images⟩ ∧
      (∀ imd ∈ images, imd.width ≤ maxWidthFold images 0) ∧
      (∃ imd ∈ images, imd.width = maxWidthFold images 0) ∧
      (∀ (i : Nat) (imd : imageData), images.get? i = some imd →
        comp.draws.get? i = some ⟨⟨0, sumHeights (images.take i), imd.width,
          sumHeights (images.take i) + imd.height⟩, imd⟩) := by
  have htd : getTotalDim images = .ok (sumHeights images, sumWidths images) := by
    rw [getTotalDim_eq, if_neg hnz]
  refine ⟨makeImage (sumHeights images) (sumWidths images)
      (getMaxDim images).1 (getMaxDim images).2 images out, ?_, ?_, ?_, ?_, ?_⟩
  · unfold processImages
    rw [htd]
  · simp [makeImage, getMaxDim_snd]
  · exact maxWidthFold_le images 0
  · rcases maxWidthFold_attained images 0 with h0 | h
    · rcases images with _ | ⟨x, xs⟩
      · exact absurd rfl hne
      · refine ⟨x, List.mem_cons_self x xs, ?_⟩
        have h1 := maxWidthFold_le (x :: xs) 0 x (List.mem_cons_self x xs)
        have h2 := hw x (List.mem_cons_self x xs)
        omega
    · exact h
  · intro i imd hi
    have hd : (makeImage (sumHeights images) (sumWidths images)
        (getMaxDim images).1 (getMaxDim images).2 images out).draws =
          drawsFrom 0 images := by
      simp [makeImage, makeImageDraws_eq]
    rw [hd]
    simpa using drawsFrom_getq images 0 i imd hi

/-- Witness for the layout theorem at two concrete panels (30×10 and
40×20): the canvas is 40 wide and 30 tall. -/
theorem processImages_layout_witness :
    exImgs ≠ [] ∧ (∀ imd ∈ exImgs, 0 ≤ imd.width) ∧
      ¬(sumHeights exImgs = 0 ∧ sumWidths exImgs = 0) ∧
      (∃ comp, processImages exImgs "out" = .ok comp ∧
        comp.canvas = ⟨0, 0, maxWidthFold exImgs 0, sumHeights exImgs⟩ ∧
        (∀ imd ∈ exImgs, imd.width ≤ maxWidthFold exImgs 0) ∧
        (∃ imd ∈ exImgs, imd.width = maxWidthFold exImgs 0) ∧
        (∀ (i : Nat) (imd : imageData), exImgs.get? i = some imd →
          comp.draws.get? i = some ⟨⟨0, sumHeights (exImgs.take i), imd.width,
            sumHeights (exImgs.take i) + imd.height⟩, imd⟩)) :=
  ⟨by decide, by decide, by decide,
    processImages_layout exImgs "out" (by decide) (by decide) (by decide)⟩

/-- Claim C7: composing zero panels, or a panel list whose total height and
total width are both zero, returns the composition error; otherwise
composition proceeds and returns a composite. -/
theorem processImages_degenerate (images : List imageData) (out : String) :
    (images = [] →
      processImages images out = .error "total Height and Width cannot be 0") ∧
    ((sumHeights images = 0 ∧ sumWidths images = 0) →
      processImages images out = .error "total Height and Width cannot be 0") ∧
    (¬(sumHeights images = 0 ∧ sumWidths images = 0) →
      ∃ comp, processImages images out = .ok comp) := by
  have key : ∀ l : List imageData, (sumHeights l = 0 ∧ sumWidths l = 0) →
      processImages l out = .error "total Height and Width cannot be 0" := by
    intro l h
    unfold processImages
    rw [getTotalDim_eq, if_pos h]
  refine ⟨?_, key images, ?_⟩
  · rintro rfl
    exact key [] ⟨rfl, rfl⟩
  · intro h
    have htd : getTotalDim images = .ok (sumHeights images, sumWidths images) := by
      rw [getTotalDim_eq, if_neg h]
    exact ⟨_, by unfold processImages; rw [htd]⟩

/-- Witness for the degenerate-composition theorem: the empty list errors,
and the concrete two-panel list composes. -/
theorem processImages_degenerate_witness :
    processImages [] "t" = .error "total Height and Width cannot be 0" ∧
    ∃ comp, processImages exImgs "t" = .ok comp :=
  ⟨(processImages_degenerate [] "t").1 rfl,
   (processImages_degenerate exImgs "t").2.2 (by decide)⟩

/-- Claim C1 fails on the code: under the interleaving `exSched`, panel 2's
worker completes first, and the shared `images` slice (appended to at
report.go:163) receives panel 2's image before panel 1's. The composite
draws panel 2 at the top (`y = 0`) and panel 1 below it: assembly follows
completion order, not dashboard position order, and nothing keys results
by position. -/
theorem renderPNGsParallel_assembles_in_completion_order :
    (runPool exEnv (tmpDirOf "u1") workers exDash exSched).images
        = [exImdB, exImdA] ∧
    renderPNGsParallel exEnv (tmpDirOf "u1") exDash exSched =
      some (.ok ⟨⟨0, 0, 40, 30⟩,
        [⟨⟨0, 0, 40, 20⟩, exImdB⟩, ⟨⟨0, 20, 30, 30⟩, exImdA⟩],
        "My first dashboard.png"⟩) := by
  constructor <;> decide

/-- Claim C2 fails on the code: when panel 2's remote fetch fails, the worker
does send the error on `errs`, but then falls through to
`os.Open(filename)` with `filename == ""` and dies at `log.Fatal`
(report.go:149): panel 3 is never fetched, the worker does not proceed, and
`renderPNGsParallel` never returns. A decode failure kills the process
without even sending an error value. -/
theorem renderPNG_failure_is_fatal :
    (runPool exEnv2 (tmpDirOf "u1") workers exDash2 exSched2).fatal = true ∧
    (runPool exEnv2 (tmpDirOf "u1") workers exDash2 exSched2).errs
        = ["error getting panel 2: boom"] ∧
    (runPool exEnv2 (tmpDirOf "u1") workers exDash2 exSched2).fetched
        = [⟨1⟩, ⟨2⟩] ∧
    renderPNGsParallel exEnv2 (tmpDirOf "u1") exDash2 exSched2 = none ∧
    processPanel exEnvDecode (tmpDirOf "u1") ⟨1⟩ = .fatalSilent := by
  refine ⟨?_, ?_, ?_, ?_, ?_⟩ <;> decide

/-- Claim C3 fails on the code: with both fetches failing and the
later-enqueued panel's worker completing first, the process dies at the
first `log.Fatal`; only panel 2's error was ever recorded, worker 0 never
finishes its panel, and `renderPNGsParallel` never returns any error. Even
the (unreachable) drain loop after `wg.Wait()` would surface the error in
channel-send (completion) order — here panel 2's — not enqueue order. -/
theorem renderPNGsParallel_error_not_enqueue_order :
    (runPool exEnv3 (tmpDirOf "u1") workers exDash3 exSched3).errs
        = ["error getting panel 2: e2"] ∧
    (runPool exEnv3 (tmpDirOf "u1") workers exDash3 exSched3).fatal = true ∧
    coordinatorResult exDash3
        (runPool exEnv3 (tmpDirOf "u1") workers exDash3 exSched3)
      = .error "error getting panel 2: e2" ∧
    renderPNGsParallel exEnv3 (tmpDirOf "u1") exDash3 exSched3 = none := by
  refine ⟨?_, ?_, ?_, ?_⟩ <;> decide

/-- Claim C6 fails on the code: the composite is written to
`dash.Title + ".png"` (report.go:351) relative to the process working
directory, not under the session's tmp dir, so `Clean()`'s
`os.RemoveAll(tmpDir)` does not delete it — although each panel's own
image file is under the tmp dir and is deleted. -/
theorem composite_not_under_workspace :
    (renderPNGsParallel exEnv6 (tmpDirOf "u6") exDash6 exSched6).map
        (Except.map Composite.file) = some (.ok "My first dashboard.png") ∧
    removedByRemoveAll (tmpDirOf "u6") "My first dashboard.png" = false ∧
    removedByRemoveAll (tmpDirOf "u6")
        (panelFileName (tmpDirOf "u6") ⟨7⟩) = true := by
  refine ⟨?_, ?_, ?_⟩ <;> decide

theorem find?_filter_multiset {α : Type} (l : List (Nat × α)) (w : Nat)
    (b : Nat × α) (hnd : (l.map Prod.fst).Nodup)
    (hfind : l.find? (fun x => x.1 == w) = some b) :
    ((l.map Prod.snd : List α) : Multiset α) =
      b.2 ::ₘ (((l.filter (fun x => x.1 != w)).map Prod.snd : List α) :
        Multiset α) := by
  induction l with
  | nil => simp at hfind
  | cons x xs ih =>
      simp only [List.map_cons, List.nodup_cons] at hnd
      by_cases hx : x.1 = w
      · rw [List.find?_cons_of_pos _ (by simp [hx])] at hfind
        obtain rfl : x = b := by injection hfind
        have hxs : xs.filter (fun y => y.1 != w) = xs := by
          apply List.filter_eq_self.mpr
          intro y hy
          simp only [bne_iff_ne, ne_eq]
          intro hyw
          have hmem : y.1 ∈ xs.map Prod.fst := List.mem_map_of_mem Prod.fst hy
          rw [hyw, ← hx] at hmem
          exact hnd.1 hmem
        simp [List.filter_cons, hx, hxs, Multiset.cons_coe]
      · rw [List.find?_cons_of_neg _ (by simp [hx])] at hfind
        have hrec := ih hnd.2 hfind
        simp only [List.filter_cons]
        rw [if_pos (by simp [hx])]
        simp only [List.map_cons, ← Multiset.cons_coe, hrec]
        exact Multiset.cons_swap _ _ _

theorem step_preserves_inv (env : Env) (tmpDir : String) (nw : Nat)
    (dash : Dashboard) (s : PoolState) (e : Ev)
    (h : PoolInv dash s) : PoolInv dash (PoolState.step env tmpDir nw s e) := by
  obtain ⟨hnd, hms⟩ := h
  cases hf : s.fatal with
  | true => simpa [PoolState.step, hf] using ⟨hnd, hms⟩
  | false =>
    cases e with
    | deq w =>
        by_cases hcan : w < nw ∧ workerFree s w = true
        · cases hq : s.queue with
          | nil => simpa [PoolState.step, hf, hcan, hq] using ⟨hnd, hms⟩
          | cons p rest =>
              have hstep : PoolState.step env tmpDir nw s (.deq w) =
                  { s with queue := rest, busy := s.busy ++ [(w, p)] } := by
                simp [PoolState.step, hf, hcan, hq]
              rw [hstep]
              constructor
              · simp only [List.map_append, List.map_cons, List.map_nil]
                refine hnd.append (List.nodup_singleton w) ?_
                intro a ha hb
                simp only [List.mem_singleton] at hb
                subst hb
                obtain ⟨bp, hbp, hbpw⟩ := List.mem_map.mp ha
                have hall := List.all_eq_true.mp hcan.2 bp hbp
                rw [hbpw] at hall
                simp at hall
              · simp only [poolMultiset] at hms ⊢
                rw [hq, ← Multiset.cons_coe, ← Multiset.singleton_add] at hms
                simp only [List.map_append, List.map_cons,
                  List.map_nil, ← Multiset.coe_add, Multiset.coe_singleton]
                rw [← hms]
                abel
        · simpa [PoolState.step, hf, hcan] using ⟨hnd, hms⟩
    | fin w =>
        cases hfind : s.busy.find? (fun b => b.1 == w) with
        | none => simpa [PoolState.step, hf, hfind] using ⟨hnd, hms⟩
        | some bp =>
            have hndf : ((s.busy.filter (fun b => b.1 != w)).map
                Prod.fst).Nodup :=
              hnd.sublist ((s.busy.filter_sublist).map Prod.fst)
            have hsplit := find?_filter_multiset s.busy w bp hnd hfind
            have hmsf : ((s.queue : Multiset Panel) +
                ((s.busy.filter (fun b => b.1 != w)).map Prod.snd :
                  List Panel) + ((s.fetched ++ [bp.2] : List Panel) :
                  Multiset Panel)) = (dash.panels : Multiset Panel) := by
              simp only [poolMultiset] at hms
              rw [hsplit, ← Multiset.singleton_add] at hms
              rw [← Multiset.coe_add, Multiset.coe_singleton, ← hms]
              abel
            cases hp : processPanel env tmpDir bp.2 with
            | appended imd =>
                have hstep : PoolState.step env tmpDir nw s (.fin w) =
                    { s with
                        busy := s.busy.filter (fun b => b.1 != w),
                        fetched := s.fetched ++ [bp.2],
                        images := s.images ++ [imd] } := by
                  simp [PoolState.step, hf, hfind, hp]
                rw [hstep]
                exact ⟨hndf, hmsf⟩
            | fatalAfterSend e' =>
                have hstep : PoolState.step env tmpDir nw s (.fin w) =
                    { s with
                        busy := s.busy.filter (fun b => b.1 != w),
                        fetched := s.fetched ++ [bp.2],
                        errs := s.errs ++ [e'],
                        fatal := true } := by
                  simp [PoolState.step, hf, hfind, hp]
                rw [hstep]
                exact ⟨hndf, hmsf⟩
            | fatalSilent =>
                have hstep : PoolState.step env tmpDir nw s (.fin w) =
                    { s with
                        busy := s.busy.filter (fun b => b.1 != w),
                        fetched := s.fetched ++ [bp.2],
                        fatal := true } := by
                  simp [PoolState.step, hf, hfind, hp]
                rw [hstep]
                exact ⟨hndf, hmsf⟩

theorem foldl_preserves_inv (env : Env) (tmpDir : String) (nw : Nat)
    (dash : Dashboard) (sched : List Ev) (s : PoolState)
    (h : PoolInv dash s) :
    PoolInv dash (sched.foldl (PoolState.step env tmpDir nw) s) := by
  induction sched generalizing s with
  | nil => exact h
  | cons e rest ih => exact ih _ (step_preserves_inv env tmpDir nw dash s e h)

theorem runPool_inv (env : Env) (tmpDir : String) (nw : Nat)
    (dash : Dashboard) (sched : List Ev) :
    PoolInv dash (runPool env tmpDir nw dash sched) :=
  foldl_preserves_inv env tmpDir nw dash sched (initState dash)
    ⟨by simp [initState], by simp [initState, poolMultiset]⟩

/-- Claim C5: the buffered channel is loaded with exactly the dashboard's
panel list, and in any run of the pool — any number of workers, any
interleaving — that drains the queue and leaves no worker busy, the list of
`GetPanelPng` calls is a permutation of the dashboard's panels: exactly `N`
fetch calls for an `N`-panel dashboard, each panel fetched exactly once
(counted with multiplicity). -/
theorem renderPNGsParallel_fetch_calls (env : Env) (tmpDir : String)
    (nw : Nat) (dash : Dashboard) (sched : List Ev)
    (hq : (runPool env tmpDir nw dash sched).queue = [])
    (hb : (runPool env tmpDir nw dash sched).busy = []) :
    (initState dash).queue = dash.panels ∧
    (runPool env tmpDir nw dash sched).fetched.Perm dash.panels ∧
    (runPool env tmpDir nw dash sched).fetched.length = dash.panels.length ∧
    ∀ p : Panel, (runPool env tmpDir nw dash sched).fetched.count p =
      dash.panels.count p := by
  have hinv := (runPool_inv env tmpDir nw dash sched).2
  rw [poolMultiset, hq, hb] at hinv
  simp only [List.map_nil, Multiset.coe_nil, zero_add] at hinv
  have hperm := Multiset.coe_eq_coe.mp hinv
  exact ⟨rfl, hperm, hperm.length_eq, fun p => hperm.count_eq p⟩

/-- Witness: the nine-panel test dashboard, four workers, an interleaved
schedule that drains the queue: nine fetch calls, one per panel. -/
theorem renderPNGsParallel_fetch_calls_witness :
    (runPool exEnv9 (tmpDirOf "u9") 4 exDash9 exSched9).queue = [] ∧
    (runPool exEnv9 (tmpDirOf "u9") 4 exDash9 exSched9).busy = [] ∧
    ((initState exDash9).queue = exDash9.panels ∧
      (runPool exEnv9 (tmpDirOf "u9") 4 exDash9 exSched9).fetched.Perm
        exDash9.panels ∧
      (runPool exEnv9 (tmpDirOf "u9") 4 exDash9 exSched9).fetched.length =
        exDash9.panels.length ∧
      ∀ p : Panel,
        (runPool exEnv9 (tmpDirOf "u9") 4 exDash9 exSched9).fetched.count p =
          exDash9.panels.count p) :=
  ⟨by decide, by decide,
    renderPNGsParallel_fetch_calls exEnv9 (tmpDirOf "u9") 4 exDash9 exSched9
      (by decide) (by decide)⟩

/-- Claim C8 counterexample: the coordinator is *not* invoked with the
session's configured concurrency: with the default flag value 2 (clamped
value 2), the pool constructed by `renderPNGsParallel` still has
`workers = 5` workers. -/
theorem coordinator_ignores_configured_concurrency :
    mainWorkerValue 2 = 2 ∧ (workers : Int) ≠ mainWorkerValue 2 := by
  constructor <;> decide

/-- Claim C8, amended: every constructed pool has at least one worker:
`main` resets a non-positive worker flag to 1, and the pool built by
`renderPNGsParallel` always has the hard-coded `workers = 5 ≥ 1` workers —
independent of the configured concurrency. -/
theorem worker_pool_at_least_one (w : Int) (hw : w < 1) :
    mainWorkerValue w = 1 ∧ (∀ v : Int, 1 ≤ mainWorkerValue v) ∧
      1 ≤ workers ∧ workers = 5 := by
  refine ⟨by simp [mainWorkerValue, hw], fun v => ?_, by decide, rfl⟩
  by_cases h : v < 1
  · simp [mainWorkerValue, h]
  · simp only [mainWorkerValue, h, if_false]
    omega

/-- Witness: the clamp theorem applied to the non-positive flag value -3. -/
theorem worker_pool_at_least_one_witness :
    ((-3 : Int) < 1) ∧
      (mainWorkerValue (-3) = 1 ∧ (∀ v : Int, 1 ≤ mainWorkerValue v) ∧
        1 ≤ workers ∧ workers = 5) :=
  ⟨by decide, worker_pool_at_least_one (-3) (by decide)⟩

/-- Claim C9: `Title()` called with no stored title performs its own
dashboard fetch; on success it returns the dashboard's title, on failure it
returns `""` as an ordinary value (`TitleCall` is total — nothing is
raised) and leaves the stored title empty; and `Generate`'s outcome never
depends on the stored title, so a failed title fetch cannot abort report
generation. -/
theorem Title_lazy_fetch (dash : Dashboard) (e : String) :
    TitleCall (.ok dash) "" = (dash.title, dash.title, true) ∧
    TitleCall (.error e) "" = ("", "", true) ∧
    (∀ (dashName : String) (render : Dashboard → Except String String)
        (t₁ t₂ : String),
      (GenerateCall (.ok dash) dashName render t₁).1 =
        (GenerateCall (.ok dash) dashName render t₂).1 ∧
      (GenerateCall (.error e) dashName render t₁).1 =
        (GenerateCall (.error e) dashName render t₂).1) := by
  refine ⟨by simp [TitleCall], by simp [TitleCall],
    fun dashName render t₁ t₂ => ⟨?_, ?_⟩⟩
  · simp only [GenerateCall]
  · simp [GenerateCall]

/-- Claim C10: the cached-title check is `rep.dashTitle == ""`: when the
dashboard's own title is the empty string, `Title()` stores `""` and every
subsequent call fetches again; when the title is non-empty, the second
call uses the cache and performs no fetch. -/
theorem Title_empty_title_never_cached (dash dashN : Dashboard)
    (h : dash.title = "") (hN : dashN.title ≠ "") :
    TitleCall (.ok dash) "" = ("", "", true) ∧
    (TitleCall (.ok dash) (TitleCall (.ok dash) "").2.1).2.2 = true ∧
    (TitleCall (.ok dashN) (TitleCall (.ok dashN) "").2.1).2.2 = false := by
  refine ⟨by simp [TitleCall, h], by simp [TitleCall, h], ?_⟩
  simp [TitleCall, hN]

/-- Witness: a dashboard titled `""` is re-fetched by every `Title()`
call; one titled `"T"` is fetched once and then cached. -/
theorem Title_empty_title_never_cached_witness :
    ((⟨"", []⟩ : Dashboard).title = "") ∧
      ((⟨"T", []⟩ : Dashboard).title ≠ "") ∧
      (TitleCall (.ok ⟨"", []⟩) "" = ("", "", true) ∧
        (TitleCall (.ok ⟨"", []⟩) (TitleCall (.ok ⟨"", []⟩) "").2.1).2.2 =
          true ∧
        (TitleCall (.ok ⟨"T", []⟩) (TitleCall (.ok ⟨"T", []⟩) "").2.1).2.2 =
          false) :=
  ⟨rfl, by decide,
    Title_empty_title_never_cached ⟨"", []⟩ ⟨"T", []⟩ rfl (by decide)⟩

end Grafpng
